import Mathlib

/-!
Verification of the LQ-problem data model of `aligator/gar/lqr-problem.hpp`.

Scalars are modelled by `ℚ` (the code is generic over a floating-point
scalar; we use exact rationals so that the structural properties can be
stated and decided exactly).  Machine integers `int`/`uint` are modelled by
`ℤ`/`ℕ`, with the `(uint)` cast made explicit as reduction modulo 2^32
where the source performs such a cast.  A `ManagedMatrix` is modelled by
its shape together with an entry function; allocators and storage layout
are not observable at the value level and are not modelled.
-/

/-- Model of a managed (owning) vector: a length plus an entry function. -/
structure MVec where
  rows : ℕ
  entry : ℕ → ℚ

/-- Model of a managed (owning) matrix: a shape plus an entry function. -/
structure MMat where
  rows : ℕ
  cols : ℕ
  entry : ℕ → ℕ → ℚ

/-- Modelled from the spec: `ManagedMatrix::isApprox` (the file
`managed-matrix.hpp` is not under src/).  Per the spec it compares values
elementwise within the given tolerance and requires equal shapes; the
"hard failure" on a shape mismatch is totalized here to `false`. -/
def MMat.isApprox (a b : MMat) (prec : ℚ) : Bool :=
  a.rows == b.rows && a.cols == b.cols &&
    decide (∀ i < a.rows, ∀ j < a.cols, |a.entry i j - b.entry i j| ≤ prec)

/-- Modelled from the spec: `ManagedMatrix::isApprox` for vectors. -/
def MVec.isApprox (a b : MVec) (prec : ℚ) : Bool :=
  a.rows == b.rows && decide (∀ i < a.rows, |a.entry i - b.entry i| ≤ prec)

/-- Modelled from the spec: the default tolerance is machine epsilon for
the scalar type; for `double` this is 2^(-52). -/
def machineEps : ℚ := 1 / 2 ^ 52

/-- All-zero matrix of a given shape. -/
def zeroMat (r c : ℕ) : MMat := ⟨r, c, fun _ _ => 0⟩

/-- All-zero vector of a given length. -/
def zeroVec (r : ℕ) : MVec := ⟨r, fun _ => 0⟩

/-- Model of `LqrKnotTpl`: the five dimensions and the seventeen blocks,
in the order they are declared in the source. -/
structure LqrKnot where
  nx : ℕ
  nu : ℕ
  nc : ℕ
  nx2 : ℕ
  nth : ℕ
  Q : MMat
  S : MMat
  R : MMat
  q : MVec
  r : MVec
  A : MMat
  B : MMat
  E : MMat
  f : MVec
  C : MMat
  D : MMat
  d : MVec
  Gth : MMat
  Gx : MMat
  Gu : MMat
  Gv : MMat
  gamma : MVec

/-- Modelled from the spec: the dimension constructor
`LqrKnotTpl(nx, nu, nc, nx2, nth, alloc)` (its body is not under src/)
zero-initializes every block at the shape dictated by the dimensions:
Q(nx,nx), S(nx,nu), R(nu,nu), q(nx), r(nu), A(nx2,nx), B(nx2,nu),
E(nx2,nx2), f(nx2), C(nc,nx), D(nc,nu), d(nc), Gth(nth,nth), Gx(nth,nx),
Gu(nth,nu), Gv(nc,nth), gamma(nth). -/
def mkKnot (nx nu nc nx2 nth : ℕ) : LqrKnot :=
  ⟨nx, nu, nc, nx2, nth,
   zeroMat nx nx, zeroMat nx nu, zeroMat nu nu, zeroVec nx, zeroVec nu,
   zeroMat nx2 nx, zeroMat nx2 nu, zeroMat nx2 nx2, zeroVec nx2,
   zeroMat nc nx, zeroMat nc nu, zeroVec nc,
   zeroMat nth nth, zeroMat nth nx, zeroMat nth nu, zeroMat nc nth,
   zeroVec nth⟩

/-- Modelled from the spec: `LqrKnotTpl::isApprox(other, prec)` (its body
is not under src/; only the declaration at lines 184-185 is).  True iff
all five dimensions match and every corresponding block pair is
elementwise close within `prec`. -/
def LqrKnot.isApprox (a b : LqrKnot) (prec : ℚ) : Bool :=
  a.nx == b.nx && a.nu == b.nu && a.nc == b.nc && a.nx2 == b.nx2 &&
  a.nth == b.nth &&
  a.Q.isApprox b.Q prec && a.S.isApprox b.S prec && a.R.isApprox b.R prec &&
  a.q.isApprox b.q prec && a.r.isApprox b.r prec &&
  a.A.isApprox b.A prec && a.B.isApprox b.B prec && a.E.isApprox b.E prec &&
  a.f.isApprox b.f prec &&
  a.C.isApprox b.C prec && a.D.isApprox b.D prec && a.d.isApprox b.d prec &&
  a.Gth.isApprox b.Gth prec && a.Gx.isApprox b.Gx prec &&
  a.Gu.isApprox b.Gu prec && a.Gv.isApprox b.Gv prec &&
  a.gamma.isApprox b.gamma prec

/-- Model of `operator==(const LqrKnotTpl&, const LqrKnotTpl&)` at source
lines 187-189: `lhs.isApprox(rhs)` at the default tolerance. -/
def knotEq (lhs rhs : LqrKnot) : Bool :=
  lhs.isApprox rhs machineEps

/-- Propositional counterpart of matrix closeness, following the spec
wording: equal shapes and entries elementwise within the tolerance. -/
def MMatClose (a b : MMat) (prec : ℚ) : Prop :=
  a.rows = b.rows ∧ a.cols = b.cols ∧
    ∀ i < a.rows, ∀ j < a.cols, |a.entry i j - b.entry i j| ≤ prec

/-- Propositional counterpart of vector closeness. -/
def MVecClose (a b : MVec) (prec : ℚ) : Prop :=
  a.rows = b.rows ∧ ∀ i < a.rows, |a.entry i - b.entry i| ≤ prec

/-- Propositional counterpart of knot closeness, following the claim
wording: all five dimensions match and every corresponding block pair is
elementwise close within the tolerance. -/
def KnotClose (a b : LqrKnot) (prec : ℚ) : Prop :=
  (a.nx = b.nx ∧ a.nu = b.nu ∧ a.nc = b.nc ∧ a.nx2 = b.nx2 ∧
   a.nth = b.nth) ∧
  MMatClose a.Q b.Q prec ∧ MMatClose a.S b.S prec ∧
  MMatClose a.R b.R prec ∧
  MVecClose a.q b.q prec ∧ MVecClose a.r b.r prec ∧
  MMatClose a.A b.A prec ∧ MMatClose a.B b.B prec ∧
  MMatClose a.E b.E prec ∧ MVecClose a.f b.f prec ∧
  MMatClose a.C b.C prec ∧ MMatClose a.D b.D prec ∧
  MVecClose a.d b.d prec ∧
  MMatClose a.Gth b.Gth prec ∧ MMatClose a.Gx b.Gx prec ∧
  MMatClose a.Gu b.Gu prec ∧ MMatClose a.Gv b.Gv prec ∧
  MVecClose a.gamma b.gamma prec


/-- Shape consistency of a knot: every block has the shape dictated by
the five dimensions (the invariant stated in the data-model section of
the spec, established by the constructors). -/
def KnotWF (k : LqrKnot) : Prop :=
  k.Q.rows = k.nx ∧ k.Q.cols = k.nx ∧
  k.S.rows = k.nx ∧ k.S.cols = k.nu ∧
  k.R.rows = k.nu ∧ k.R.cols = k.nu ∧
  k.q.rows = k.nx ∧ k.r.rows = k.nu ∧
  k.A.rows = k.nx2 ∧ k.A.cols = k.nx ∧
  k.B.rows = k.nx2 ∧ k.B.cols = k.nu ∧
  k.E.rows = k.nx2 ∧ k.E.cols = k.nx2 ∧
  k.f.rows = k.nx2 ∧
  k.C.rows = k.nc ∧ k.C.cols = k.nx ∧
  k.D.rows = k.nc ∧ k.D.cols = k.nu ∧
  k.d.rows = k.nc ∧
  k.Gth.rows = k.nth ∧ k.Gth.cols = k.nth ∧
  k.Gx.rows = k.nth ∧ k.Gx.cols = k.nx ∧
  k.Gu.rows = k.nth ∧ k.Gu.cols = k.nu ∧
  k.Gv.rows = k.nc ∧ k.Gv.cols = k.nth ∧
  k.gamma.rows = k.nth

/-- Modelled from the spec: `LqrKnotTpl::addParameterization(nth)` (its
body is not under src/; only the declaration at line 182 is).  It grows
the parameter blocks to dimension `nth`, preserving all existing
cost/dynamics/constraint data and zero-initializing newly added entries;
the other blocks are untouched.  The reallocation it performs is not
observable at the value level. -/
def LqrKnot.addParameterization (k : LqrKnot) (nth' : ℕ) : LqrKnot :=
  { k with
    nth := nth'
    Gth := ⟨nth', nth',
      fun i j => if i < k.nth ∧ j < k.nth then k.Gth.entry i j else 0⟩
    Gx := ⟨nth', k.nx, fun i j => if i < k.nth then k.Gx.entry i j else 0⟩
    Gu := ⟨nth', k.nu, fun i j => if i < k.nth then k.Gu.entry i j else 0⟩
    Gv := ⟨k.nc, nth', fun i j => if j < k.nth then k.Gv.entry i j else 0⟩
    gamma := ⟨nth', fun i => if i < k.nth then k.gamma.entry i else 0⟩ }

/-- Modelled from the spec: the copy constructor
`LqrKnotTpl(const LqrKnotTpl&, allocator_type)` (its body is not under
src/; only the declaration at line 167 is) deep-copies every block's
values into fresh storage; dimensions match the source.  Each block is
rebuilt field by field. -/
def copyKnot (k : LqrKnot) : LqrKnot :=
  ⟨k.nx, k.nu, k.nc, k.nx2, k.nth,
   ⟨k.Q.rows, k.Q.cols, k.Q.entry⟩, ⟨k.S.rows, k.S.cols, k.S.entry⟩,
   ⟨k.R.rows, k.R.cols, k.R.entry⟩,
   ⟨k.q.rows, k.q.entry⟩, ⟨k.r.rows, k.r.entry⟩,
   ⟨k.A.rows, k.A.cols, k.A.entry⟩, ⟨k.B.rows, k.B.cols, k.B.entry⟩,
   ⟨k.E.rows, k.E.cols, k.E.entry⟩, ⟨k.f.rows, k.f.entry⟩,
   ⟨k.C.rows, k.C.cols, k.C.entry⟩, ⟨k.D.rows, k.D.cols, k.D.entry⟩,
   ⟨k.d.rows, k.d.entry⟩,
   ⟨k.Gth.rows, k.Gth.cols, k.Gth.entry⟩, ⟨k.Gx.rows, k.Gx.cols, k.Gx.entry⟩,
   ⟨k.Gu.rows, k.Gu.cols, k.Gu.entry⟩, ⟨k.Gv.rows, k.Gv.cols, k.Gv.entry⟩,
   ⟨k.gamma.rows, k.gamma.entry⟩⟩

/-- Default knot used to model reads through `operator[]`; an index that
is in bounds never sees it. -/
def defaultKnot : LqrKnot := mkKnot 0 0 0 0 0

/-- Default vector used to model reads through `operator[]`. -/
def defaultVec : MVec := zeroVec 0

/-- Model of `LqrProblemTpl`: the initial-condition blocks `G0`, `g0`
and the ordered stage sequence. -/
structure LqrProblem where
  G0 : MMat
  g0 : MVec
  stages : List LqrKnot

/-- Model of `LqrProblemTpl::horizon()` (source line 210):
`(int)stages.size() - 1`.  The `int` is modelled as an unbounded integer
(faithful for any realizable stage count). -/
def LqrProblem.horizon (p : LqrProblem) : ℤ :=
  (p.stages.length : ℤ) - 1

/-- Model of `LqrProblemTpl::nc0()` (source line 212): the row count of
`g0`. -/
def LqrProblem.nc0 (p : LqrProblem) : ℕ :=
  p.g0.rows

/-- Model of the default constructor `LqrProblemTpl(alloc)` (source
lines 214-219): empty `G0`, `g0` and stage sequence. -/
def emptyProblem : LqrProblem :=
  ⟨zeroMat 0 0, zeroVec 0, []⟩

/-- Modelled from the spec: the constructor
`LqrProblemTpl(knots, nc0, alloc)` (its body is not under src/; only the
declaration at line 222 is) stores the knots as-is and shapes the
initial-condition blocks as `G0(nc0, nx0)`, `g0(nc0)`, zero-initialized,
where `nx0` is the first knot's `nx` (0 for an empty sequence). -/
def mkProblem (knots : List LqrKnot) (nc0 : ℕ) : LqrProblem :=
  ⟨zeroMat nc0 ((knots.headD defaultKnot).nx), zeroVec nc0, knots⟩

/-- The C++ cast `(uint)z` of a (possibly negative) `int` value:
reduction modulo 2^32. -/
def uintOfInt (z : ℤ) : ℕ :=
  (z % (2 ^ 32 : ℤ)).toNat

/-- The stage-comparison loop of `LqrProblemTpl::isApprox` (source
lines 270-273): starting at index `i`, perform `count` iterations, each
reading `stages[i]` of both problems and short-circuiting on the first
pair that is not close.  An out-of-bounds read (undefined behavior in
the source) is modelled by `none`. -/
def checkStages (ps qs : List LqrKnot) (i : ℕ) : ℕ → Option Bool
  | 0 => some true
  | count + 1 =>
    match ps.get? i, qs.get? i with
    | some a, some b =>
      if a.isApprox b machineEps then checkStages ps qs (i + 1) count
      else some false
    | _, _ => none

/-- Model of `LqrProblemTpl::isApprox(other)` (source lines 266-275):
compare horizons, then `G0` and `g0` at the default tolerance, then run
the stage loop `for (uint i = 0; i < uint(horizon()); i++)`.  The loop
bound is the `(uint)` cast of `horizon()`; `none` models the
out-of-bounds access the loop performs on an empty problem. -/
def LqrProblem.isApproxM (p other : LqrProblem) : Option Bool :=
  if p.horizon ≠ other.horizon then some false
  else if ¬ (p.G0.isApprox other.G0 machineEps) then some false
  else if ¬ (p.g0.isApprox other.g0 machineEps) then some false
  else checkStages p.stages other.stages 0 (uintOfInt p.horizon)

/-- Model of `LqrProblemTpl::isParameterized()` (source lines 258-260):
`!stages.empty() && stages[0].nth > 0`, with the short-circuit of `&&`
captured by the pattern match (the first stage is read only when the
sequence is non-empty). -/
def LqrProblem.isParameterized (p : LqrProblem) : Bool :=
  match p.stages with
  | [] => false
  | k :: _ => decide (0 < k.nth)

/-- Model of `LqrProblemTpl::ntheta()` (source line 264):
`stages[0].nth`, read unconditionally; `none` models the out-of-bounds
access performed on an empty problem. -/
def LqrProblem.nthetaM (p : LqrProblem) : Option ℕ :=
  (p.stages.get? 0).map LqrKnot.nth

/-- The in-place update loop of `LqrProblemTpl::addParameterization`
(source lines 253-255): starting at index `i`, perform `count`
iterations, each replacing `stages[i]` by its grown version. -/
def setLoop (f : LqrKnot → LqrKnot) (st : List LqrKnot) (i : ℕ) :
    ℕ → List LqrKnot
  | 0 => st
  | count + 1 =>
    setLoop f (st.set i (f (st.getD i defaultKnot))) (i + 1) count

/-- Model of `LqrProblemTpl::addParameterization(nth)` (source lines
250-256): return unchanged when the stage sequence is empty, otherwise
run `for (uint i = 0; i <= (uint)horizon(); i++)
stages[i].addParameterization(nth)`. -/
def LqrProblem.addParam (p : LqrProblem) (nth : ℕ) : LqrProblem :=
  if p.stages.isEmpty then p
  else
    { p with
      stages := setLoop (fun k => k.addParameterization nth) p.stages 0
        (uintOfInt p.horizon + 1) }

/-- Bilinear form `aᵀ M b`, summed over the declared shape of `M`. -/
def bilinM (M : MMat) (a b : MVec) : ℚ :=
  ∑ i ∈ Finset.range M.rows, ∑ j ∈ Finset.range M.cols,
    a.entry i * M.entry i j * b.entry j

/-- Dot product `aᵀ b`, summed over the declared length of `a`. -/
def dotv (a b : MVec) : ℚ :=
  ∑ i ∈ Finset.range a.rows, a.entry i * b.entry i

/-- One stage's control-independent objective terms, from the spec
formula: `xᵀQx + 2qᵀx`.  These are the only terms the terminal stage
contributes ("terminal stage has no control-dependent terms beyond its
own Q/q"). -/
def stageBase (k : LqrKnot) (x : MVec) : ℚ :=
  bilinM k.Q x x + 2 * dotv k.q x

/-- One stage's control-dependent objective terms, from the spec
formula: `2xᵀSu + uᵀRu + 2rᵀu`; contributed by every non-terminal
stage. -/
def stageCtrl (k : LqrKnot) (x u : MVec) : ℚ :=
  2 * bilinM k.S x u + bilinM k.R u u + 2 * dotv k.r u

/-- Modelled from the spec: one stage's control-independent parameter
cross-terms, added when a parameter vector is supplied.  The spec gives
no formula beyond "parameter cross-terms"; the blocks `Gth`, `Gx`,
`gamma` are combined with `theta` in the same convention as the
objective terms. -/
def crossBase (k : LqrKnot) (th x : MVec) : ℚ :=
  bilinM k.Gth th th + 2 * bilinM k.Gx th x + 2 * dotv k.gamma th

/-- Modelled from the spec: one stage's control-dependent parameter
cross-term `2θᵀGu u`; like the other control-dependent terms it is
contributed only by non-terminal stages. -/
def crossCtrl (k : LqrKnot) (th u : MVec) : ℚ :=
  2 * bilinM k.Gu th u

/-- Modelled from the spec: `LqrProblemTpl::evaluate(xs, us, theta)` (its
body is not under src/; only the declaration at lines 278-279 is).  Per
the spec it computes the total quadratic objective
`sum_t [xᵀQx + 2xᵀSu + uᵀRu + 2qᵀx + 2rᵀu]`, where the terminal stage
`t = horizon()` has no control-dependent terms beyond its own `Q`/`q`
(so its `S`/`R`/`r` terms are dropped), plus parameter cross-terms if
`theta` is supplied (the control-dependent `Gu` cross-term likewise only
at non-terminal stages); `xs` and `us` must each have length
`horizon()+1` and `theta`, if present, length `ntheta()` (which reads
`stages[0]`).  Contract violations are modelled by `none`. -/
def LqrProblem.evaluate (p : LqrProblem) (xs us : List MVec)
    (theta : Option MVec) : Option ℚ :=
  if xs.length = p.stages.length ∧ us.length = p.stages.length then
    let base : ℚ := ∑ i ∈ Finset.range p.stages.length,
      (stageBase (p.stages.getD i defaultKnot) (xs.getD i defaultVec) +
        if i + 1 = p.stages.length then 0
        else stageCtrl (p.stages.getD i defaultKnot) (xs.getD i defaultVec)
          (us.getD i defaultVec))
    match theta with
    | none => some base
    | some th =>
      match p.stages with
      | [] => none
      | k0 :: _ =>
        if th.rows = k0.nth then
          some (base + ∑ i ∈ Finset.range p.stages.length,
            (crossBase (p.stages.getD i defaultKnot) th
                (xs.getD i defaultVec) +
              if i + 1 = p.stages.length then 0
              else crossCtrl (p.stages.getD i defaultKnot) th
                (us.getD i defaultVec)))
        else none
  else none

/-- Model of `operator<<(std::ostream&, const LqrKnotTpl&)` (source
lines 298-332), abstracted to the sequence of printed sections, each
named by its label.  The `debug` flag models compilation without
`NDEBUG`.  The order and the two `nth > 0` guards mirror the source;
`eigenPrintWithPreamble` (not under src/) is modelled as emitting one
section per call, carrying the block's full contents. -/
def knotPrintSections (debug : Bool) (k : LqrKnot) : List String :=
  ["nx", "nu", "nc"] ++
  (if 0 < k.nth then ["nth"] else []) ++
  (if debug then
    ["Q", "S", "R", "q", "r", "A", "B", "E", "f", "C", "D", "d"] ++
      (if 0 < k.nth then ["Gth", "Gx", "Gu", "gamma"] else [])
  else [])

/-- Concrete knot used in counterexamples: the all-zero knot with
dimensions nx = nu = nx2 = 1, nc = nth = 0. -/
def knotA : LqrKnot := mkKnot 1 1 0 1 0

/-- Concrete knot: same dimensions as `knotA` but with `q = (1)`. -/
def knotB : LqrKnot := { knotA with q := ⟨1, fun _ => 1⟩ }

/-- One-stage problem whose only stage is `knotA`. -/
def probA : LqrProblem := mkProblem [knotA] 0

/-- One-stage problem whose only stage is `knotB`. -/
def probB : LqrProblem := mkProblem [knotB] 0

/-- The scenario knot of the spec: nx = 2, nu = 1, nc = 0, nx2 = 2,
nth = 0, all blocks zero. -/
def knotScen : LqrKnot := mkKnot 2 1 0 2 0

/-- The scenario problem of the spec: three copies of `knotScen` and
nc0 = 0. -/
def probScen : LqrProblem := mkProblem [knotScen, knotScen, knotScen] 0

/-- The scenario state sequence: three zero vectors of length 2. -/
def xsScen : List MVec := [zeroVec 2, zeroVec 2, zeroVec 2]

/-- The scenario control sequence: three zero vectors of length 1. -/
def usScen : List MVec := [zeroVec 1, zeroVec 1, zeroVec 1]

/-- The all-one vector of length 1. -/
def oneVec : MVec := ⟨1, fun _ => 1⟩

/-- Concrete knot with nx = nu = nx2 = 1, nc = nth = 0, `R = (1)` and
all other blocks zero; used to exhibit the terminal stage's missing
control terms. -/
def knotTerm : LqrKnot := { mkKnot 1 1 0 1 0 with R := ⟨1, 1, fun _ _ => 1⟩ }

/-- One-stage problem whose only (hence terminal) stage is `knotTerm`. -/
def probTerm : LqrProblem := mkProblem [knotTerm] 0

/-- State sequence for `probTerm`: one zero vector. -/
def xsTerm : List MVec := [zeroVec 1]

/-- Control sequence for `probTerm`: one all-one vector. -/
def usTerm : List MVec := [oneVec]

/-- Concrete parameterized knot: all-zero with nx = nu = nx2 = nth = 1,
nc = 0. -/
def knotTh : LqrKnot := mkKnot 1 1 0 1 1

/-- One-stage problem whose only stage is the parameterized `knotTh`. -/
def probTh : LqrProblem := mkProblem [knotTh] 0

theorem mmatApprox_iff (a b : MMat) (prec : ℚ) :
    a.isApprox b prec = true ↔ MMatClose a b prec := by
  simp [MMat.isApprox, MMatClose, Bool.and_eq_true, decide_eq_true_eq,
    beq_iff_eq, and_assoc]

theorem mvecApprox_iff (a b : MVec) (prec : ℚ) :
    a.isApprox b prec = true ↔ MVecClose a b prec := by
  simp [MVec.isApprox, MVecClose, Bool.and_eq_true, decide_eq_true_eq,
    beq_iff_eq]

theorem mmatApprox_self (a : MMat) (prec : ℚ) (h : 0 ≤ prec) :
    a.isApprox a prec = true := by
  rw [mmatApprox_iff]
  exact ⟨rfl, rfl, fun i _ j _ => by simpa using h⟩

theorem mvecApprox_self (a : MVec) (prec : ℚ) (h : 0 ≤ prec) :
    a.isApprox a prec = true := by
  rw [mvecApprox_iff]
  exact ⟨rfl, fun i _ => by simpa using h⟩

theorem knotApprox_iff (a b : LqrKnot) (prec : ℚ) :
    a.isApprox b prec = true ↔ KnotClose a b prec := by
  simp only [LqrKnot.isApprox, KnotClose, Bool.and_eq_true, beq_iff_eq,
    mmatApprox_iff, mvecApprox_iff]
  tauto

theorem knotApprox_self (a : LqrKnot) (prec : ℚ) (h : 0 ≤ prec) :
    a.isApprox a prec = true := by
  simp only [LqrKnot.isApprox, Bool.and_eq_true, beq_iff_eq,
    mmatApprox_self _ _ h, mvecApprox_self _ _ h, and_self,
    and_true, true_and]

theorem machineEps_nonneg : (0 : ℚ) ≤ machineEps := by
  norm_num [machineEps]
theorem MMatClose_refl (a : MMat) (prec : ℚ) (h : 0 ≤ prec) :
    MMatClose a a prec :=
  ⟨rfl, rfl, fun i _ j _ => by simpa using h⟩

theorem MVecClose_refl (a : MVec) (prec : ℚ) (h : 0 ≤ prec) :
    MVecClose a a prec :=
  ⟨rfl, fun i _ => by simpa using h⟩

/-- C1: the stage loop of `LqrProblemTpl::isApprox` runs for
`i < (uint)horizon()` and therefore never compares the terminal stage.
`probA` and `probB` are one-stage problems whose stages differ far
beyond the tolerance, yet `isApprox` returns true because the loop body
runs zero times.  The claim that all `horizon()+1` stage pairs are
compared is contradicted by the code. -/
theorem c1_isApprox_skips_terminal_stage :
    probA.stages.getD 0 defaultKnot = knotA ∧
    probB.stages.getD 0 defaultKnot = knotB ∧
    LqrKnot.isApprox knotA knotB machineEps = false ∧
    LqrProblem.isApproxM probA probB = some true := by
  refine ⟨rfl, rfl, ?_, by decide⟩
  rw [Bool.eq_false_iff, Ne, knotApprox_iff]
  intro h
  have hq := h.2.2.2.2.1
  rw [knotA, knotB] at hq
  have := hq.2 0 (by simp [mkKnot, zeroVec])
  norm_num [mkKnot, zeroVec, machineEps] at this

/-- C4: on the default-constructed (empty) problem, `horizon()` is `-1`;
its `(uint)` cast in the stage loop bound of `isApprox` wraps to
4294967295, so `p.isApprox(p)` reads `stages[0]` out of bounds (modelled
by `none`) instead of returning true as the claim states. -/
theorem c4_isApprox_empty_out_of_bounds :
    emptyProblem.stages = [] ∧
    uintOfInt emptyProblem.horizon = 4294967295 ∧
    LqrProblem.isApproxM emptyProblem emptyProblem = none := by
  exact ⟨rfl, by decide, by decide⟩

/-- C5: `LqrKnotTpl::isApprox(other, prec)` holds exactly when all five
dimensions match and every corresponding block pair is elementwise close
within `prec`, and `operator==` is this relation at the default
tolerance (machine epsilon, `machineEps`). -/
theorem c5_knot_isApprox_spec :
    (∀ a b : LqrKnot, ∀ prec : ℚ,
      a.isApprox b prec = true ↔ KnotClose a b prec) ∧
    ∀ a b : LqrKnot, knotEq a b = a.isApprox b machineEps :=
  ⟨knotApprox_iff, fun _ _ => rfl⟩

/-- C6: constructing a knot from any dimension tuple and copy-constructing
from it yields a copy whose dimensions match the original and which is
`isApprox`-equal to it at the default tolerance. -/
theorem c6_copy_construction (nx nu nc nx2 nth : ℕ) :
    (copyKnot (mkKnot nx nu nc nx2 nth)).nx = (mkKnot nx nu nc nx2 nth).nx ∧
    (copyKnot (mkKnot nx nu nc nx2 nth)).nu = (mkKnot nx nu nc nx2 nth).nu ∧
    (copyKnot (mkKnot nx nu nc nx2 nth)).nc = (mkKnot nx nu nc nx2 nth).nc ∧
    (copyKnot (mkKnot nx nu nc nx2 nth)).nx2 =
      (mkKnot nx nu nc nx2 nth).nx2 ∧
    (copyKnot (mkKnot nx nu nc nx2 nth)).nth =
      (mkKnot nx nu nc nx2 nth).nth ∧
    (copyKnot (mkKnot nx nu nc nx2 nth)).isApprox (mkKnot nx nu nc nx2 nth)
      machineEps = true :=
  ⟨rfl, rfl, rfl, rfl, rfl,
   knotApprox_self (mkKnot nx nu nc nx2 nth) machineEps
     machineEps_nonneg⟩

/-- C7: `horizon()` is the stage count minus one; in particular `-1` for
the empty problem and `k - 1` for a problem built from `k` knots. -/
theorem c7_horizon_stage_count :
    emptyProblem.horizon = -1 ∧
    (∀ (knots : List LqrKnot) (n0 : ℕ),
      (mkProblem knots n0).horizon = (knots.length : ℤ) - 1) ∧
    ∀ p : LqrProblem, p.horizon = (p.stages.length : ℤ) - 1 :=
  ⟨rfl, fun _ _ => rfl, fun _ => rfl⟩

/-- C10: on a problem with an empty stage sequence, `isParameterized()`
short-circuits to false without reading any stage, while `ntheta()`
unconditionally reads `stages[0]`, which is out of bounds (modelled by
`none`); on a non-empty problem `ntheta()` is the first stage's `nth`. -/
theorem c10_isParameterized_ntheta_empty :
    (∀ (G : MMat) (g : MVec),
      LqrProblem.isParameterized ⟨G, g, []⟩ = false) ∧
    (∀ (G : MMat) (g : MVec), LqrProblem.nthetaM ⟨G, g, []⟩ = none) ∧
    (∀ (G : MMat) (g : MVec) (k : LqrKnot) (rest : List LqrKnot),
      LqrProblem.nthetaM ⟨G, g, k :: rest⟩ = some k.nth) ∧
    ∀ (G : MMat) (g : MVec) (k : LqrKnot) (rest : List LqrKnot),
      LqrProblem.isParameterized ⟨G, g, k :: rest⟩ = decide (0 < k.nth) :=
  ⟨fun _ _ => rfl, fun _ _ => rfl, fun _ _ _ _ => rfl, fun _ _ _ _ => rfl⟩

/-- C3: for any knot and any new parameter dimension, Knot-level
addParameterization leaves the blocks Q, S, R, q, r, A, B, E, f, C, D, d
numerically unchanged, shapes Gth, Gx, Gu, Gv, gamma by the new
dimension with newly added entries zero, and calling it with the knot's
current nth leaves all block values unchanged (isApprox-equal at the
default tolerance). -/
theorem c3_knot_addParameterization (k : LqrKnot) (nth' : ℕ)
    (_hgrow : k.nth ≤ nth') (hwf : KnotWF k) :
    ((k.addParameterization nth').Q = k.Q ∧
     (k.addParameterization nth').S = k.S ∧
     (k.addParameterization nth').R = k.R ∧
     (k.addParameterization nth').q = k.q ∧
     (k.addParameterization nth').r = k.r ∧
     (k.addParameterization nth').A = k.A ∧
     (k.addParameterization nth').B = k.B ∧
     (k.addParameterization nth').E = k.E ∧
     (k.addParameterization nth').f = k.f ∧
     (k.addParameterization nth').C = k.C ∧
     (k.addParameterization nth').D = k.D ∧
     (k.addParameterization nth').d = k.d) ∧
    ((k.addParameterization nth').nth = nth' ∧
     (k.addParameterization nth').Gth.rows = nth' ∧
     (k.addParameterization nth').Gth.cols = nth' ∧
     (k.addParameterization nth').Gx.rows = nth' ∧
     (k.addParameterization nth').Gx.cols = k.nx ∧
     (k.addParameterization nth').Gu.rows = nth' ∧
     (k.addParameterization nth').Gu.cols = k.nu ∧
     (k.addParameterization nth').Gv.rows = k.nc ∧
     (k.addParameterization nth').Gv.cols = nth' ∧
     (k.addParameterization nth').gamma.rows = nth' ∧
     (∀ i < nth', ∀ j < nth', (k.nth ≤ i ∨ k.nth ≤ j) →
       (k.addParameterization nth').Gth.entry i j = 0) ∧
     (∀ i, k.nth ≤ i → ∀ j, (k.addParameterization nth').Gx.entry i j = 0) ∧
     (∀ i, k.nth ≤ i → ∀ j, (k.addParameterization nth').Gu.entry i j = 0) ∧
     (∀ j, k.nth ≤ j → ∀ i, (k.addParameterization nth').Gv.entry i j = 0) ∧
     (∀ i, k.nth ≤ i → (k.addParameterization nth').gamma.entry i = 0)) ∧
    (k.addParameterization k.nth).isApprox k machineEps = true := by
  obtain ⟨hQr, hQc, hSr, hSc, hRr, hRc, hqr, hrr, hAr, hAc, hBr, hBc, hEr,
    hEc, hfr, hCr, hCc, hDr, hDc, hdr, hGthr, hGthc, hGxr, hGxc, hGur,
    hGuc, hGvr, hGvc, hgammar⟩ := hwf
  refine ⟨⟨rfl, rfl, rfl, rfl, rfl, rfl, rfl, rfl, rfl, rfl, rfl, rfl⟩,
    ⟨rfl, rfl, rfl, rfl, rfl, rfl, rfl, rfl, rfl, rfl, ?_, ?_, ?_, ?_, ?_⟩,
    ?_⟩
  · intro i _ j _ hij
    simp only [LqrKnot.addParameterization]
    rw [if_neg (by omega)]
  · intro i hi j
    simp only [LqrKnot.addParameterization]
    rw [if_neg (by omega)]
  · intro i hi j
    simp only [LqrKnot.addParameterization]
    rw [if_neg (by omega)]
  · intro j hj i
    simp only [LqrKnot.addParameterization]
    rw [if_neg (by omega)]
  · intro i hi
    simp only [LqrKnot.addParameterization]
    rw [if_neg (by omega)]
  · rw [knotApprox_iff]
    refine ⟨⟨rfl, rfl, rfl, rfl, rfl⟩,
      MMatClose_refl _ _ machineEps_nonneg,
      MMatClose_refl _ _ machineEps_nonneg,
      MMatClose_refl _ _ machineEps_nonneg,
      MVecClose_refl _ _ machineEps_nonneg,
      MVecClose_refl _ _ machineEps_nonneg,
      MMatClose_refl _ _ machineEps_nonneg,
      MMatClose_refl _ _ machineEps_nonneg,
      MMatClose_refl _ _ machineEps_nonneg,
      MVecClose_refl _ _ machineEps_nonneg,
      MMatClose_refl _ _ machineEps_nonneg,
      MMatClose_refl _ _ machineEps_nonneg,
      MVecClose_refl _ _ machineEps_nonneg,
      ⟨hGthr.symm, hGthc.symm, ?_⟩, ⟨hGxr.symm, hGxc.symm, ?_⟩,
      ⟨hGur.symm, hGuc.symm, ?_⟩, ⟨hGvr.symm, hGvc.symm, ?_⟩,
      ⟨hgammar.symm, ?_⟩⟩
    · intro i hi j hj
      have : (k.addParameterization k.nth).Gth.entry i j = k.Gth.entry i j :=
        if_pos ⟨hi, hj⟩
      rw [this]
      simpa using machineEps_nonneg
    · intro i hi j hj
      have : (k.addParameterization k.nth).Gx.entry i j = k.Gx.entry i j :=
        if_pos hi
      rw [this]
      simpa using machineEps_nonneg
    · intro i hi j hj
      have : (k.addParameterization k.nth).Gu.entry i j = k.Gu.entry i j :=
        if_pos hi
      rw [this]
      simpa using machineEps_nonneg
    · intro i hi j hj
      have : (k.addParameterization k.nth).Gv.entry i j = k.Gv.entry i j :=
        if_pos hj
      rw [this]
      simpa using machineEps_nonneg
    · intro i hi
      have : (k.addParameterization k.nth).gamma.entry i = k.gamma.entry i :=
        if_pos hi
      rw [this]
      simpa using machineEps_nonneg

/-- Running the index loop over the whole list is the same as mapping
the update function over it. -/
theorem setLoop_eq_map (f : LqrKnot → LqrKnot) :
    ∀ (count : ℕ) (l : List LqrKnot) (i : ℕ), i + count = l.length →
      setLoop f l i count = l.take i ++ (l.drop i).map f := by
  intro count
  induction count with
  | zero =>
    intro l i h
    have hi : i = l.length := by omega
    subst hi
    simp [setLoop]
  | succ n ih =>
    intro l i h
    have hlt : i < l.length := by omega
    rw [setLoop]
    rw [ih (l.set i (f (l.getD i defaultKnot))) (i + 1)
      (by simp only [List.length_set]; omega)]
    rw [List.getD_eq_getElem l defaultKnot hlt]
    rw [List.set_eq_take_cons_drop _ hlt]
    rw [List.take_append_eq_append_take, List.drop_append_eq_append_drop]
    have hlen : (l.take i).length = i := by
      simp [List.length_take, Nat.min_eq_left hlt.le]
    rw [hlen]
    have h1 : i + 1 - i = 1 := by omega
    rw [h1]
    rw [List.take_take, Nat.min_eq_right (by omega : i ≤ i + 1)]
    rw [List.drop_eq_nil_of_le (by omega : (l.take i).length ≤ i + 1)]
    rw [List.drop_eq_getElem_cons hlt]
    simp
    rw [List.drop_eq_getElem_cons (show i < (List.map f l).length by
      simpa using hlt)]
    simp

/-- C8: Problem-level addParameterization applies the Knot-level growth
to every stage (the loop covers all horizon()+1 of them), leaves G0 and
g0 untouched, and returns without modifying any state on an empty
problem.  The stage-count bound reflects the 32-bit loop counter of the
source. -/
theorem c8_problem_addParameterization (p : LqrProblem) (nth : ℕ)
    (hlen : p.stages.length ≤ 2 ^ 32) :
    (p.stages = [] → p.addParam nth = p) ∧
    (p.addParam nth).stages =
      p.stages.map (fun k => k.addParameterization nth) ∧
    (p.addParam nth).G0 = p.G0 ∧ (p.addParam nth).g0 = p.g0 := by
  by_cases he : p.stages.isEmpty
  · have hnil : p.stages = [] := List.isEmpty_iff.mp he
    refine ⟨fun _ => ?_, ?_, ?_, ?_⟩ <;>
      simp [LqrProblem.addParam, he, hnil]
  · have hnil : p.stages ≠ [] := fun h => he (by simp [h])
    have hpos : 0 < p.stages.length := List.length_pos.mpr hnil
    have hcount : uintOfInt p.horizon + 1 = p.stages.length := by
      unfold uintOfInt LqrProblem.horizon
      rw [Int.emod_eq_of_lt (by omega) (by push_cast; omega)]
      omega
    refine ⟨fun h0 => absurd h0 hnil, ?_, ?_, ?_⟩ <;>
      simp only [LqrProblem.addParam, he, if_neg, Bool.false_eq_true,
        not_false_eq_true]
    · rw [hcount, setLoop_eq_map _ p.stages.length p.stages 0 (by omega)]
      simp

/-- C2 (amended): with well-sized inputs and no parameter vector,
evaluate returns the sum over stages of xᵀQx + 2qᵀx plus, at every
non-terminal stage, the control-dependent terms 2xᵀSu + uᵀRu + 2rᵀu
(the terminal stage contributes no control-dependent terms beyond its
own Q/q); when a parameter vector of length ntheta() is supplied it
additionally adds the modelled parameter cross-terms, with the
control-dependent Gu term likewise only at non-terminal stages; and on
the spec scenario (three all-zero knots with nx = 2, nu = 1, nc = 0,
nx2 = 2, nth = 0, nc0 = 0, zero state and control sequences) it
returns 0. -/
theorem c2_evaluate_objective :
    (∀ (p : LqrProblem) (xs us : List MVec),
      xs.length = p.stages.length → us.length = p.stages.length →
      p.evaluate xs us none = some (∑ i ∈ Finset.range p.stages.length,
        (bilinM (p.stages.getD i defaultKnot).Q (xs.getD i defaultVec)
            (xs.getD i defaultVec) +
          2 * dotv (p.stages.getD i defaultKnot).q (xs.getD i defaultVec) +
          if i + 1 = p.stages.length then 0
          else
            2 * bilinM (p.stages.getD i defaultKnot).S
              (xs.getD i defaultVec) (us.getD i defaultVec) +
            bilinM (p.stages.getD i defaultKnot).R (us.getD i defaultVec)
              (us.getD i defaultVec) +
            2 * dotv (p.stages.getD i defaultKnot).r
              (us.getD i defaultVec)))) ∧
    (∀ (p : LqrProblem) (xs us : List MVec) (th : MVec) (k0 : LqrKnot)
      (rest : List LqrKnot), p.stages = k0 :: rest →
      xs.length = p.stages.length → us.length = p.stages.length →
      th.rows = k0.nth →
      p.evaluate xs us (some th) =
        some ((∑ i ∈ Finset.range p.stages.length,
          (stageBase (p.stages.getD i defaultKnot) (xs.getD i defaultVec) +
            if i + 1 = p.stages.length then 0
            else stageCtrl (p.stages.getD i defaultKnot)
              (xs.getD i defaultVec) (us.getD i defaultVec))) +
          ∑ i ∈ Finset.range p.stages.length,
            (crossBase (p.stages.getD i defaultKnot) th
                (xs.getD i defaultVec) +
              if i + 1 = p.stages.length then 0
              else crossCtrl (p.stages.getD i defaultKnot) th
                (us.getD i defaultVec)))) ∧
    probScen.evaluate xsScen usScen none = some 0 := by
  refine ⟨?_, ?_, ?_⟩
  · intro p xs us h1 h2
    simp only [LqrProblem.evaluate]
    rw [if_pos ⟨h1, h2⟩]
    rfl
  · intro p xs us th k0 rest hst h1 h2 hrows
    obtain ⟨PG, pg, pst⟩ := p
    replace hst : pst = k0 :: rest := hst
    subst hst
    simp only [LqrProblem.evaluate]
    rw [if_pos ⟨h1, h2⟩]
    rw [if_pos hrows]
  · simp [LqrProblem.evaluate, probScen, mkProblem, knotScen, mkKnot,
      stageBase, stageCtrl, bilinM, dotv, zeroMat, zeroVec, defaultKnot,
      defaultVec, xsScen, usScen, Finset.sum_range_succ]

/-- C2: counterexample to the claim as stated.  On a one-stage problem
whose single (hence terminal) knot has R = (1), with zero state and unit
control, the claimed unqualified formula sums the terminal control term
uᵀRu and yields 1, but evaluate — which per the spec drops
control-dependent terms at the terminal stage — returns 0. -/
theorem c2_evaluate_counterexample :
    probTerm.evaluate xsTerm usTerm none = some 0 ∧
    (∑ i ∈ Finset.range probTerm.stages.length,
      (bilinM (probTerm.stages.getD i defaultKnot).Q
          (xsTerm.getD i defaultVec) (xsTerm.getD i defaultVec) +
        2 * bilinM (probTerm.stages.getD i defaultKnot).S
          (xsTerm.getD i defaultVec) (usTerm.getD i defaultVec) +
        bilinM (probTerm.stages.getD i defaultKnot).R
          (usTerm.getD i defaultVec) (usTerm.getD i defaultVec) +
        2 * dotv (probTerm.stages.getD i defaultKnot).q
          (xsTerm.getD i defaultVec) +
        2 * dotv (probTerm.stages.getD i defaultKnot).r
          (usTerm.getD i defaultVec))) = 1 ∧
    probTerm.evaluate xsTerm usTerm none ≠
      some (∑ i ∈ Finset.range probTerm.stages.length,
        (bilinM (probTerm.stages.getD i defaultKnot).Q
            (xsTerm.getD i defaultVec) (xsTerm.getD i defaultVec) +
          2 * bilinM (probTerm.stages.getD i defaultKnot).S
            (xsTerm.getD i defaultVec) (usTerm.getD i defaultVec) +
          bilinM (probTerm.stages.getD i defaultKnot).R
            (usTerm.getD i defaultVec) (usTerm.getD i defaultVec) +
          2 * dotv (probTerm.stages.getD i defaultKnot).q
            (xsTerm.getD i defaultVec) +
          2 * dotv (probTerm.stages.getD i defaultKnot).r
            (usTerm.getD i defaultVec))) := by
  have h1 : probTerm.evaluate xsTerm usTerm none = some 0 := by
    simp [LqrProblem.evaluate, probTerm, mkProblem, knotTerm, mkKnot,
      stageBase, stageCtrl, bilinM, dotv, zeroMat, zeroVec, defaultKnot,
      defaultVec, xsTerm, usTerm, oneVec, Finset.sum_range_succ]
  have h2 : (∑ i ∈ Finset.range probTerm.stages.length,
      (bilinM (probTerm.stages.getD i defaultKnot).Q
          (xsTerm.getD i defaultVec) (xsTerm.getD i defaultVec) +
        2 * bilinM (probTerm.stages.getD i defaultKnot).S
          (xsTerm.getD i defaultVec) (usTerm.getD i defaultVec) +
        bilinM (probTerm.stages.getD i defaultKnot).R
          (usTerm.getD i defaultVec) (usTerm.getD i defaultVec) +
        2 * dotv (probTerm.stages.getD i defaultKnot).q
          (xsTerm.getD i defaultVec) +
        2 * dotv (probTerm.stages.getD i defaultKnot).r
          (usTerm.getD i defaultVec))) = 1 := by
    simp [probTerm, mkProblem, knotTerm, mkKnot, bilinM, dotv, zeroMat,
      zeroVec, defaultKnot, defaultVec, xsTerm, usTerm, oneVec,
      Finset.sum_range_succ]
  refine ⟨h1, h2, ?_⟩
  rw [h1, h2]
  simp

/-- C9: counterexample to the claim that the debug output contains the
contents of every block including Gv when nth is positive: on a knot
with nth = 1 the printed sections never include Gv (the source prints
Gth, Gx, Gu, gamma only). -/
theorem c9_sections_counterexample :
    0 < (mkKnot 1 1 1 1 1).nth ∧
    "Gv" ∉ knotPrintSections true (mkKnot 1 1 1 1 1) := by
  constructor
  · decide
  · decide

/-- C9 (amended): the textual dump always reports nx, nu, nc, reports
nth exactly when nth is positive, and in debug builds contains the
contents of the blocks Q, S, R, q, r, A, B, E, f, C, D, d
unconditionally and of Gth, Gx, Gu, gamma exactly when nth is positive;
Gv is never printed, and the non-parameter block sections are printed
regardless of their governing dimensions. -/
theorem c9_print_sections (debug : Bool) (k : LqrKnot) :
    ("nx" ∈ knotPrintSections debug k ∧ "nu" ∈ knotPrintSections debug k ∧
      "nc" ∈ knotPrintSections debug k) ∧
    ("nth" ∈ knotPrintSections debug k ↔ 0 < k.nth) ∧
    (("Q" ∈ knotPrintSections debug k ↔ debug = true) ∧
      ("S" ∈ knotPrintSections debug k ↔ debug = true) ∧
      ("R" ∈ knotPrintSections debug k ↔ debug = true) ∧
      ("q" ∈ knotPrintSections debug k ↔ debug = true) ∧
      ("r" ∈ knotPrintSections debug k ↔ debug = true) ∧
      ("A" ∈ knotPrintSections debug k ↔ debug = true) ∧
      ("B" ∈ knotPrintSections debug k ↔ debug = true) ∧
      ("E" ∈ knotPrintSections debug k ↔ debug = true) ∧
      ("f" ∈ knotPrintSections debug k ↔ debug = true) ∧
      ("C" ∈ knotPrintSections debug k ↔ debug = true) ∧
      ("D" ∈ knotPrintSections debug k ↔ debug = true) ∧
      ("d" ∈ knotPrintSections debug k ↔ debug = true)) ∧
    (("Gth" ∈ knotPrintSections debug k ↔ debug = true ∧ 0 < k.nth) ∧
      ("Gx" ∈ knotPrintSections debug k ↔ debug = true ∧ 0 < k.nth) ∧
      ("Gu" ∈ knotPrintSections debug k ↔ debug = true ∧ 0 < k.nth) ∧
      ("gamma" ∈ knotPrintSections debug k ↔ debug = true ∧ 0 < k.nth)) ∧
    "Gv" ∉ knotPrintSections debug k := by
  cases debug <;> by_cases h : 0 < k.nth <;>
    simp [knotPrintSections, h]

/-- Witness for the C3 theorem at the knot mkKnot 2 1 0 2 1 grown to
parameter dimension 2. -/
theorem c3_knot_addParameterization_witness :
    (mkKnot 2 1 0 2 1).nth ≤ 2 ∧ KnotWF (mkKnot 2 1 0 2 1) ∧
    ((mkKnot 2 1 0 2 1).addParameterization (mkKnot 2 1 0 2 1).nth).isApprox
      (mkKnot 2 1 0 2 1) machineEps = true :=
  ⟨by decide, by unfold KnotWF; decide,
    (c3_knot_addParameterization (mkKnot 2 1 0 2 1) 2 (by decide)
      (by unfold KnotWF; decide)).2.2⟩

/-- Witness for the C2 theorem: the theta-free conjunct at the spec
scenario, and the theta-supplied conjunct at the parameterized one-stage
problem probTh with θ = (1). -/
theorem c2_evaluate_objective_witness :
    (xsScen.length = probScen.stages.length ∧
      usScen.length = probScen.stages.length ∧
      probScen.evaluate xsScen usScen none =
        some (∑ i ∈ Finset.range probScen.stages.length,
          (bilinM (probScen.stages.getD i defaultKnot).Q
              (xsScen.getD i defaultVec) (xsScen.getD i defaultVec) +
            2 * dotv (probScen.stages.getD i defaultKnot).q
              (xsScen.getD i defaultVec) +
            if i + 1 = probScen.stages.length then 0
            else
              2 * bilinM (probScen.stages.getD i defaultKnot).S
                (xsScen.getD i defaultVec) (usScen.getD i defaultVec) +
              bilinM (probScen.stages.getD i defaultKnot).R
                (usScen.getD i defaultVec) (usScen.getD i defaultVec) +
              2 * dotv (probScen.stages.getD i defaultKnot).r
                (usScen.getD i defaultVec)))) ∧
    (probTh.stages = knotTh :: [] ∧ xsTerm.length = probTh.stages.length ∧
      usTerm.length = probTh.stages.length ∧ oneVec.rows = knotTh.nth ∧
      probTh.evaluate xsTerm usTerm (some oneVec) =
        some ((∑ i ∈ Finset.range probTh.stages.length,
          (stageBase (probTh.stages.getD i defaultKnot)
              (xsTerm.getD i defaultVec) +
            if i + 1 = probTh.stages.length then 0
            else stageCtrl (probTh.stages.getD i defaultKnot)
              (xsTerm.getD i defaultVec) (usTerm.getD i defaultVec))) +
          ∑ i ∈ Finset.range probTh.stages.length,
            (crossBase (probTh.stages.getD i defaultKnot) oneVec
                (xsTerm.getD i defaultVec) +
              if i + 1 = probTh.stages.length then 0
              else crossCtrl (probTh.stages.getD i defaultKnot) oneVec
                (usTerm.getD i defaultVec)))) :=
  ⟨⟨rfl, rfl, c2_evaluate_objective.1 probScen xsScen usScen rfl rfl⟩,
   ⟨rfl, rfl, rfl, rfl,
    c2_evaluate_objective.2.1 probTh xsTerm usTerm oneVec knotTh []
      rfl rfl rfl rfl⟩⟩

/-- Witness for the C8 theorem at the scenario problem and at the empty
problem. -/
theorem c8_problem_addParameterization_witness :
    probScen.stages.length ≤ 2 ^ 32 ∧
    (probScen.addParam 2).stages =
      probScen.stages.map (fun k => k.addParameterization 2) ∧
    emptyProblem.stages = [] ∧ emptyProblem.addParam 2 = emptyProblem :=
  ⟨by decide, (c8_problem_addParameterization probScen 2 (by decide)).2.1,
   rfl, (c8_problem_addParameterization emptyProblem 2 (by decide)).1 rfl⟩
